import Mathlib

/-!
Verification development for the readwise-mcp server
(`src/services/readwise.ts` and `src/index.ts`).

We shallowly embed the data model and the operations of the repository:
the `Highlight` value object, the `cleanHighlightData` normalization, the
`ReadwiseService` methods (`createHighlight`, `createHighlights`,
`getHighlights`) with an explicit HTTP layer passed as a function and an
explicit log of issued requests, the credential resolution
(`getApiToken` plus the argv check in `index.ts`), and the
`CallToolRequestSchema` dispatcher.

JavaScript runtime values that a field of a highlight may hold at the
point where `cleanHighlightData` inspects them are modelled by `FieldVal`:
the key may be absent (`undefined` / not a key of the object), hold JSON
`null`, a string, or a number.  The distinction between an absent key and
a `null` value is observable in the transmitted JSON body
(`JSON.stringify` drops absent keys but keeps `null` members), so the
model keeps it.
-/

/-- A JavaScript runtime value sitting in one field of a highlight object:
the key can be absent (`undefined`), `null`, a string, or a number. -/
inductive FieldVal where
  | absent
  | vnull
  | str (s : String)
  | num (n : Int)
deriving DecidableEq, Repr

/-- The `Highlight` interface of `src/services/readwise.ts` (lines 53-65):
`text` plus ten optional fields.  Every field is a `FieldVal` because the
dispatcher casts the loosely-typed argument bag into this shape without
checking, so at runtime any field can hold any of these values. -/
structure Highlight where
  text : FieldVal := .absent
  title : FieldVal := .absent
  author : FieldVal := .absent
  source_url : FieldVal := .absent
  note : FieldVal := .absent
  location : FieldVal := .absent
  location_type : FieldVal := .absent
  highlighted_at : FieldVal := .absent
  category : FieldVal := .absent
  highlight_url : FieldVal := .absent
  image_url : FieldVal := .absent
deriving DecidableEq, Repr

/-- The per-key action of `cleanHighlightData` (readwise.ts lines 83-89):
a value that is the empty string is replaced by `null`; every other value
is left as it is.  Absent keys are not visited by `Object.keys`, and an
absent key is not the empty string, so the pointwise function agrees with
the source loop on absent keys as well. -/
def cleanField (v : FieldVal) : FieldVal :=
  if v = .str "" then .vnull else v

/-- `ReadwiseService.cleanHighlightData` (readwise.ts lines 79-92):
copies the highlight and sets every empty-string field to `null`. -/
def cleanHighlightData (h : Highlight) : Highlight where
  text := cleanField h.text
  title := cleanField h.title
  author := cleanField h.author
  source_url := cleanField h.source_url
  note := cleanField h.note
  location := cleanField h.location
  location_type := cleanField h.location_type
  highlighted_at := cleanField h.highlighted_at
  category := cleanField h.category
  highlight_url := cleanField h.highlight_url
  image_url := cleanField h.image_url

/-!
## JSON values and `JSON.stringify(value, null, 2)`

The dispatcher serializes the raw response body of the HTTP layer with
`JSON.stringify(result, null, 2)` (index.ts lines 121, 133, 143).  We
model JSON values and that pretty-printer (two-space indentation, `": "`
between a key and its value, empty arrays and objects printed inline).
-/

/-- A JSON value as decoded from an HTTP response body. -/
inductive Json where
  | null
  | bool (b : Bool)
  | num (n : Int)
  | str (s : String)
  | arr (xs : List Json)
  | obj (kvs : List (String × Json))
deriving Repr

/-- Hex digit for `\u00XX` escapes. -/
def hexDigit (n : Nat) : Char :=
  if n < 10 then Char.ofNat (48 + n) else Char.ofNat (87 + n)

/-- Escape one character the way `JSON.stringify` escapes string members. -/
def escChar (c : Char) : String :=
  if c = '"' then "\\\""
  else if c = '\\' then "\\\\"
  else if c = '\n' then "\\n"
  else if c = '\r' then "\\r"
  else if c = '\t' then "\\t"
  else if c = '\x08' then "\\b"
  else if c = '\x0c' then "\\f"
  else if c.toNat < 32 then
    "\\u00" ++ String.mk [hexDigit (c.toNat / 16), hexDigit (c.toNat % 16)]
  else String.mk [c]

/-- A JSON string literal: quotes around the escaped characters. -/
def quoteStr (s : String) : String :=
  "\"" ++ String.join (s.toList.map escChar) ++ "\""

/-- `2 * d` spaces: the indentation `JSON.stringify(·, null, 2)` puts in
front of a member nested at depth `d`. -/
def pad (d : Nat) : String :=
  String.mk (List.replicate (2 * d) ' ')

mutual

/-- Render a JSON value at nesting depth `d`, exactly as
`JSON.stringify(value, null, 2)` renders it. -/
def renderJson (d : Nat) : Json → String
  | .null => "null"
  | .bool b => if b then "true" else "false"
  | .num n => toString n
  | .str s => quoteStr s
  | .arr [] => "[]"
  | .arr (x :: xs) =>
      "[\n" ++ renderArrItems (d + 1) x xs ++ "\n" ++ pad d ++ "]"
  | .obj [] => "\x7b\x7d"
  | .obj ((k, v) :: kvs) =>
      "\x7b\n" ++ renderObjItems (d + 1) k v kvs ++ "\n" ++ pad d ++ "\x7d"
termination_by j => sizeOf j

/-- Render the comma-separated, indented items of a non-empty array. -/
def renderArrItems (d : Nat) (x : Json) : List Json → String
  | [] => pad d ++ renderJson d x
  | y :: ys => pad d ++ renderJson d x ++ ",\n" ++ renderArrItems d y ys
termination_by xs => sizeOf x + sizeOf xs

/-- Render the comma-separated, indented members of a non-empty object. -/
def renderObjItems (d : Nat) (k : String) (v : Json) :
    List (String × Json) → String
  | [] => pad d ++ quoteStr k ++ ": " ++ renderJson d v
  | (k2, v2) :: kws =>
      pad d ++ quoteStr k ++ ": " ++ renderJson d v ++ ",\n" ++
        renderObjItems d k2 v2 kws
termination_by kvs => sizeOf v + sizeOf kvs

end

/-- `JSON.stringify(v, null, 2)`: the serialization the dispatcher puts in
the `text` member of a successful tool result. -/
def stringify2 (v : Json) : String :=
  renderJson 0 v

/-!
## The `ReadwiseService` HTTP client

The axios instance of `initReadwiseApi` is modelled as a function from
requests to outcomes: a decoded JSON response body on success, or the
`message` string of the raised error on failure (network error or non-2xx
status).  Each service method returns the list of requests it issues
together with its outcome, so "exactly one POST" is a statement about the
returned request list.
-/

/-- The HTTP method of a request issued by the service. -/
inductive Method where
  | get
  | post
deriving DecidableEq, Repr

/-- The JSON body `{ highlights: [...] }` that both create methods POST
(readwise.ts lines 106-108 and 126). -/
structure PostBody where
  highlights : List Highlight
deriving DecidableEq, Repr

/-- One HTTP request as issued through the axios instance: method, path
relative to the fixed base URL, and optional JSON body. -/
structure Request where
  method : Method
  path : String
  body : Option PostBody
deriving DecidableEq, Repr

/-- The behaviour of the HTTP layer: every request either yields a decoded
response body or fails with an error message. -/
def HttpLayer : Type := Request → Except String Json

/-- `ReadwiseService.createHighlight` (readwise.ts lines 99-114): cleans
the highlight, issues one POST to `/highlights/` with the single-element
`highlights` array, and returns the response data; a failure is logged
(console is silenced) and rethrown unchanged. -/
def createHighlight (http : HttpLayer) (highlight : Highlight) :
    List Request × Except String Json :=
  let cleanedHighlight := cleanHighlightData highlight
  let req : Request := ⟨.post, "/highlights/", some ⟨[cleanedHighlight]⟩⟩
  ([req], http req)

/-- `ReadwiseService.createHighlights` (readwise.ts lines 121-132): cleans
each highlight of the array independently and issues one POST to
`/highlights/` carrying the whole cleaned array. -/
def createHighlights (http : HttpLayer) (highlights : List Highlight) :
    List Request × Except String Json :=
  let cleanedHighlights := highlights.map (fun highlight => cleanHighlightData highlight)
  let req : Request := ⟨.post, "/highlights/", some ⟨cleanedHighlights⟩⟩
  ([req], http req)

/-- `ReadwiseService.getHighlights` (readwise.ts lines 138-146): one GET
to `/highlights/`, response data returned, failures rethrown. -/
def getHighlights (http : HttpLayer) :
    List Request × Except String Json :=
  let req : Request := ⟨.get, "/highlights/", none⟩
  ([req], http req)

/-!
## The `CallToolRequestSchema` dispatcher (index.ts lines 112-159)

`request.params.arguments` is a loosely-typed bag.  The handler casts it
to `Highlight` for `create_highlight` and reads its `highlights` member
for `create_highlights`, with no check.  `ArgBag` carries both views of
the same bag: the bag read as a `Highlight` (keys that the bag lacks are
`absent`), and its `highlights` member (`none` when the bag has no such
key).  When the member is missing, `createHighlights(undefined)` throws a
`TypeError` from `undefined.map`, which the surrounding `catch` turns
into an error result like every other failure.
-/

/-- The `type`/`text` pair inside a tool result's `content` array. -/
structure ContentItem where
  type : String
  text : String
deriving DecidableEq, Repr

/-- The envelope the handler returns to the transport layer. -/
structure ToolResult where
  content : List ContentItem
  isError : Bool
deriving DecidableEq, Repr

/-- The loosely-typed argument bag of a tool call, seen through the two
unchecked casts of the handler. -/
structure ArgBag where
  highlight : Highlight := {}
  highlights : Option (List Highlight) := none
deriving DecidableEq, Repr

/-- The message of the `TypeError` Node raises when `create_highlights`
is called without a `highlights` member and the service maps over
`undefined`. -/
def undefinedMapMsg : String :=
  "Cannot read properties of undefined (reading 'map')"

/-- The body of the `try` block of the handler: which requests are issued
and whether the block returns a response value or throws, for each tool
name.  The final `throw new Error(...)` for an unmatched name is the
error of the last branch. -/
def dispatch (http : HttpLayer) (name : String) (args : ArgBag) :
    List Request × Except String Json :=
  if name = "create_highlight" then
    createHighlight http args.highlight
  else if name = "create_highlights" then
    match args.highlights with
    | some hs => createHighlights http hs
    | none => ([], .error undefinedMapMsg)
  else if name = "get_highlights" then
    getHighlights http
  else
    ([], .error ("Unknown tool: " ++ name))

/-- How the handler wraps an outcome: a success is serialized with
`JSON.stringify(result, null, 2)` and flagged `isError: false`; the
`catch` branch wraps any thrown error's message as
`"Error: " + message` with `isError: true`. -/
def resultOf : Except String Json → ToolResult
  | .ok r => { content := [⟨"text", stringify2 r⟩], isError := false }
  | .error m => { content := [⟨"text", "Error: " ++ m⟩], isError := true }

/-- The `CallToolRequestSchema` handler (index.ts lines 112-159): runs the
dispatch and always returns a result envelope, also recording the HTTP
requests the call issued. -/
def callToolHandler (http : HttpLayer) (name : String) (args : ArgBag) :
    ToolResult × List Request :=
  let (reqs, outcome) := dispatch http name args
  (resultOf outcome, reqs)

/-!
## Credential resolution

`index.ts` line 31: `apiToken = args.length > 0 ? args[0] : getApiToken()`.
`getApiToken` (readwise.ts lines 30-51) first consults
`process.env.READWISE_API_TOKEN` (truthy check: set and non-empty), then
falls back to matching the regex
`/READWISE_API_TOKEN=(['"]?([^'"\r\n]+)['"]?|([^\s\r\n]+))/`
against the raw text of a `.env` file, returning `match[2] || match[3]`.
Reading the file is wrapped in `try`/`catch`: a read error is swallowed
and resolution falls through to the `throw`.

The regex is modelled by a specialized matcher with JavaScript `exec`
semantics: the leftmost starting position at which the whole pattern
matches wins, the literal `READWISE_API_TOKEN=` comes first, the left
alternative is preferred, `['"]?` and the `+` groups are greedy, and the
only backtracking point (`['"]?` having consumed a quote that the
following `[^'"\r\n]+` then cannot follow, because the next character is
again a quote, a newline, or the end) leads to an attempt with the quote
unconsumed, which fails as well because the quote itself is excluded from
the character class.
-/

/-- Membership in the character class `['"]`. -/
def isQuoteChar (c : Char) : Bool :=
  c = '\'' || c = '"'

/-- Membership in the character class `[\r\n]`. -/
def isCRLF (c : Char) : Bool :=
  c = '\r' || c = '\n'

/-- JavaScript's `\s` class (ECMAScript WhiteSpace plus LineTerminator),
used in the right alternative `[^\s\r\n]`. -/
def isJsSpace (c : Char) : Bool :=
  c = ' ' || c = '\t' || c = '\n' || c = '\r' || c = '\x0b' || c = '\x0c' ||
    c = ' ' || c = ' ' ||
    (' ' ≤ c && c ≤ ' ') ||
    c = ' ' || c = ' ' || c = ' ' || c = ' ' ||
    c = '　' || c = '﻿'

/-- Greedy `+` over a character class: the longest non-empty prefix whose
characters satisfy `p`, or `none` when the first character does not. -/
def takeGroup (p : Char → Bool) (cs : List Char) : Option String :=
  let g := cs.takeWhile p
  if g.isEmpty then none else some g.asString

/-- The left alternative `['"]?([^'"\r\n]+)['"]?` tried at `cs`, returning
the capture of group 2 when it matches.  The trailing `['"]?` can always
match empty and never constrains the capture. -/
def altQuoted (cs : List Char) : Option String :=
  match cs with
  | [] => none
  | c :: rest =>
    if isQuoteChar c then
      -- greedy `['"]?` consumes the quote; the `+` group must then be
      -- non-empty; if it is empty the zero-width retry starts at the
      -- quote itself, which `[^'"\r\n]` rejects, so the alternative fails
      takeGroup (fun d => !(isQuoteChar d || isCRLF d)) rest
    else
      takeGroup (fun d => !(isQuoteChar d || isCRLF d)) cs

/-- The right alternative `([^\s\r\n]+)` tried at `cs`, returning the
capture of group 3 when it matches. -/
def altBare (cs : List Char) : Option String :=
  takeGroup (fun d => !(isJsSpace d)) cs

/-- One attempt of the whole pattern right after the literal has matched:
the left alternative is preferred over the right one. -/
def matchAfterLit (cs : List Char) : Option String :=
  (altQuoted cs).orElse (fun _ => altBare cs)

/-- Match a literal: when `lit` starts `cs`, return what follows it. -/
def litMatch : List Char → List Char → Option (List Char)
  | [], cs => some cs
  | _ :: _, [] => none
  | l :: ls, c :: cs => if c = l then litMatch ls cs else none

/-- The characters of the literal `READWISE_API_TOKEN=`. -/
def tokenLit : List Char :=
  "READWISE_API_TOKEN=".toList

/-- `exec` of the token regex on the file text: try the pattern at each
starting position from the left; at a position where the literal matches
but both alternatives fail, move on to the next starting position. -/
def findToken : List Char → Option String
  | [] => none
  | c :: rest =>
    match litMatch tokenLit (c :: rest) with
    | some after =>
      match matchAfterLit after with
      | some tok => some tok
      | none => findToken rest
    | none => findToken rest

/-- The state of the `.env` file when `getApiToken` consults it:
`missing` models `fs.existsSync('.env')` returning false, `readError`
models `readFileSync` throwing (the `catch` swallows it), and `content`
is the file's text. -/
inductive FileRead where
  | missing
  | readError
  | content (s : String)
deriving DecidableEq, Repr

/-- What the `try` block around the file read yields: a token when the
file exists, is readable and the regex finds a truthy capture; `none`
otherwise.  A read error lands in the `catch`, which silently continues,
so it yields `none` exactly like a missing file or a failed match. -/
def tokenFromFile : FileRead → Option String
  | .missing => none
  | .readError => none
  | .content s => findToken s.toList

/-- The message of the error thrown at readwise.ts line 50. -/
def missingTokenMsg : String :=
  "Readwise API token not found. Please provide it as a command-line argument or environment variable."

/-- `getApiToken` (readwise.ts lines 30-51).  `env` is
`process.env.READWISE_API_TOKEN` (`none` when unset); the truthiness test
`if (process.env.READWISE_API_TOKEN)` skips an empty-string value. -/
def getApiToken (env : Option String) (file : FileRead) :
    Except String String :=
  match env with
  | some s =>
    if s = "" then
      match tokenFromFile file with
      | some tok => .ok tok
      | none => .error missingTokenMsg
    else .ok s
  | none =>
    match tokenFromFile file with
    | some tok => .ok tok
    | none => .error missingTokenMsg

/-- The resolution at `index.ts` line 31:
`args.length > 0 ? args[0] : getApiToken()`. -/
def resolveToken (args : List String) (env : Option String)
    (file : FileRead) : Except String String :=
  match args with
  | a :: _ => .ok a
  | [] => getApiToken env file

/-!
## Shared helpers for the theorems
-/

/-- The single request both create methods issue: a POST to
`/highlights/` with body `{ highlights: hs }`. -/
def postHighlights (hs : List Highlight) : Request :=
  ⟨.post, "/highlights/", some ⟨hs⟩⟩

/-- An HTTP layer whose every request succeeds with an empty object. -/
def httpOk : HttpLayer := fun _ => .ok (.obj [])

/-- `cleanField` leaves any value other than the empty string unchanged. -/
theorem cleanField_ne {v : FieldVal} (hv : v ≠ .str "") :
    cleanField v = v := by
  simp [cleanField, hv]

/-- `cleanField` is idempotent. -/
theorem cleanField_idem (v : FieldVal) :
    cleanField (cleanField v) = cleanField v := by
  by_cases hv : v = .str "" <;> simp [cleanField, hv]

/-- **C1.** For every Highlight value in which any subset of fields is
set to the empty string, the payloads built by `createHighlight` and
`createHighlights` have those fields absent rather than empty-string
before transmission to the external API.

This fails on the code: `cleanHighlightData` sets an empty-string field
to `null`, and `JSON.stringify` keeps a `null` member in the transmitted
body, so the field is present with value `null`, not absent.  Witnessed
on a highlight whose `title` is the empty string: the single POST body
carries `title: null`, and `null` is not absent. -/
theorem cleanHighlightData_empty_title_not_absent :
    (createHighlight httpOk { text := .str "t", title := .str "" }).1 =
      [postHighlights [{ text := .str "t", title := .vnull }]] ∧
    (cleanHighlightData { text := .str "t", title := .str "" }).title =
      .vnull ∧
    FieldVal.vnull ≠ FieldVal.absent := by
  refine ⟨rfl, rfl, by decide⟩

/-- **C1 (amended).** For every Highlight value in which any subset of
fields is set to the empty string, the payloads built by
`createHighlight` and `createHighlights` have those fields set to JSON
`null` (present with a `null` value) rather than empty-string before
transmission to the external API. -/
theorem createHighlight_empty_fields_become_null (http : HttpLayer)
    (h : Highlight) (hs : List Highlight) :
    (createHighlight http h).1 = [postHighlights [cleanHighlightData h]] ∧
    (createHighlights http hs).1 =
      [postHighlights (hs.map cleanHighlightData)] ∧
    (h.text = .str "" → (cleanHighlightData h).text = .vnull) ∧
    (h.title = .str "" → (cleanHighlightData h).title = .vnull) ∧
    (h.author = .str "" → (cleanHighlightData h).author = .vnull) ∧
    (h.source_url = .str "" → (cleanHighlightData h).source_url = .vnull) ∧
    (h.note = .str "" → (cleanHighlightData h).note = .vnull) ∧
    (h.location = .str "" → (cleanHighlightData h).location = .vnull) ∧
    (h.location_type = .str "" →
      (cleanHighlightData h).location_type = .vnull) ∧
    (h.highlighted_at = .str "" →
      (cleanHighlightData h).highlighted_at = .vnull) ∧
    (h.category = .str "" → (cleanHighlightData h).category = .vnull) ∧
    (h.highlight_url = .str "" →
      (cleanHighlightData h).highlight_url = .vnull) ∧
    (h.image_url = .str "" → (cleanHighlightData h).image_url = .vnull) := by
  refine ⟨rfl, rfl, ?_, ?_, ?_, ?_, ?_, ?_, ?_, ?_, ?_, ?_, ?_⟩ <;>
    intro hf <;> simp [cleanHighlightData, cleanField, hf]

/-- Witness for the amended C1: a highlight with every field set to the
empty string has every field of its cleaned form equal to `null`, and the
create payload is the single POST carrying it. -/
theorem createHighlight_empty_fields_become_null_witness :
    (createHighlight httpOk
        { text := .str "", title := .str "", author := .str "",
          source_url := .str "", note := .str "", location := .str "",
          location_type := .str "", highlighted_at := .str "",
          category := .str "", highlight_url := .str "",
          image_url := .str "" }).1 =
      [postHighlights [cleanHighlightData
        { text := .str "", title := .str "", author := .str "",
          source_url := .str "", note := .str "", location := .str "",
          location_type := .str "", highlighted_at := .str "",
          category := .str "", highlight_url := .str "",
          image_url := .str "" }]] ∧
    (cleanHighlightData
        { text := .str "", title := .str "", author := .str "",
          source_url := .str "", note := .str "", location := .str "",
          location_type := .str "", highlighted_at := .str "",
          category := .str "", highlight_url := .str "",
          image_url := .str "" }).title = .vnull := by
  have hmain := createHighlight_empty_fields_become_null httpOk
    { text := .str "", title := .str "", author := .str "",
      source_url := .str "", note := .str "", location := .str "",
      location_type := .str "", highlighted_at := .str "",
      category := .str "", highlight_url := .str "",
      image_url := .str "" } []
  exact ⟨hmain.1, hmain.2.2.2.1 rfl⟩

/-- **C2.** For every tool name and every argument value, the
`CallToolRequestSchema` handler never lets an exception escape to the
transport layer: it is a total function into result envelopes, and any
failure raised inside the `try` block (a Highlight Client error, the
`TypeError` of a missing `highlights` member, or the unknown-tool throw)
is converted into
`{content: [{type: "text", text: "Error: " + message}], isError: true}`. -/
theorem callToolHandler_catches_all (http : HttpLayer) (name : String)
    (args : ArgBag) (m : String)
    (hm : (dispatch http name args).2 = .error m) :
    (callToolHandler http name args).1 =
      ⟨[⟨"text", "Error: " ++ m⟩], true⟩ := by
  unfold callToolHandler
  simp only []
  rw [show (dispatch http name args) =
        ((dispatch http name args).1, (dispatch http name args).2) from rfl,
      hm]
  rfl

/-- Witness for C2: a 401 failure of the HTTP layer on `create_highlight`
is returned as an error-flagged result, not thrown. -/
theorem callToolHandler_catches_all_witness :
    (callToolHandler (fun _ => .error "Request failed with status code 401")
        "create_highlight" {}).1 =
      ⟨[⟨"text", "Error: Request failed with status code 401"⟩], true⟩ := by
  exact callToolHandler_catches_all
    (fun _ => .error "Request failed with status code 401")
    "create_highlight" {} "Request failed with status code 401" rfl

/-- **C3.** Credential resolution obeys first-match-wins order with the
first command-line argument used only when it is present and non-empty.

This fails on the code: `index.ts` line 31 tests only `args.length > 0`,
so an empty-string first argument is used as the token instead of falling
through to the environment variable; and the truthiness test in
`getApiToken` skips an environment variable that is set to the empty
string, so the file is consulted although the variable is present. -/
theorem resolveToken_empty_arg_counterexample :
    resolveToken [""] (some "envtok") .missing = .ok "" ∧
    (Except.ok "" : Except String String) ≠ .ok "envtok" ∧
    resolveToken [] (some "")
        (.content "READWISE_API_TOKEN=filetok") = .ok "filetok" := by
  refine ⟨rfl, by simp, rfl⟩

/-- **C3 (amended).** Credential resolution obeys first-match-wins order
with no merging: the first command-line argument is used whenever it is
present, even when it is the empty string; otherwise the environment
variable is used when it is set to a non-empty value; otherwise a token
parsed from the local configuration file; the resolver fails with the
missing-credential error exactly when the command line is empty, the
environment variable is unset or empty, and the file yields no token. -/
theorem resolveToken_first_match_wins (args : List String)
    (env : Option String) (file : FileRead) :
    (∀ a rest, args = a :: rest → resolveToken args env file = .ok a) ∧
    (∀ s, args = [] → env = some s → s ≠ "" →
      resolveToken args env file = .ok s) ∧
    (args = [] → (env = none ∨ env = some "") →
      ∀ tok, tokenFromFile file = some tok →
        resolveToken args env file = .ok tok) ∧
    (args = [] → (env = none ∨ env = some "") →
      tokenFromFile file = none →
      resolveToken args env file = .error missingTokenMsg) := by
  refine ⟨?_, ?_, ?_, ?_⟩
  · intro a rest hargs
    subst hargs
    rfl
  · intro s hargs henv hs
    subst hargs
    subst henv
    simp [resolveToken, getApiToken, hs]
  · intro hargs henv tok htok
    subst hargs
    rcases henv with henv | henv <;> subst henv <;>
      simp [resolveToken, getApiToken, htok]
  · intro hargs henv hfile
    subst hargs
    rcases henv with henv | henv <;> subst henv <;>
      simp [resolveToken, getApiToken, hfile]

/-- Witness for the amended C3: each branch of the resolution order at a
concrete input — argument wins over a set environment variable, the
environment variable wins over a populated file, the file is used when
the variable is absent, and everything absent yields the
missing-credential error. -/
theorem resolveToken_first_match_wins_witness :
    resolveToken ["argtok"] (some "envtok")
        (.content "READWISE_API_TOKEN=filetok") = .ok "argtok" ∧
    resolveToken [] (some "envtok")
        (.content "READWISE_API_TOKEN=filetok") = .ok "envtok" ∧
    resolveToken [] none
        (.content "READWISE_API_TOKEN=filetok") = .ok "filetok" ∧
    resolveToken [] none .missing = .error missingTokenMsg := by
  refine ⟨?_, ?_, ?_, ?_⟩
  · exact (resolveToken_first_match_wins ["argtok"] (some "envtok")
      (.content "READWISE_API_TOKEN=filetok")).1 "argtok" [] rfl
  · exact (resolveToken_first_match_wins [] (some "envtok")
      (.content "READWISE_API_TOKEN=filetok")).2.1 "envtok" rfl rfl
      (by decide)
  · exact (resolveToken_first_match_wins [] none
      (.content "READWISE_API_TOKEN=filetok")).2.2.1 rfl (Or.inl rfl)
      "filetok" rfl
  · exact (resolveToken_first_match_wins [] none .missing).2.2.2 rfl
      (Or.inl rfl) rfl

/-- **C4.** For every name not among the three known operations and any
arguments, the handler returns (does not throw) the result
`{isError: true, content: [{type: "text", text: "Error: Unknown tool: <name>"}]}`,
and no HTTP request is issued. -/
theorem callToolHandler_unknown_tool (http : HttpLayer) (name : String)
    (args : ArgBag)
    (hname : name ∉ (["create_highlight", "create_highlights",
      "get_highlights"] : List String)) :
    callToolHandler http name args =
      (⟨[⟨"text", "Error: Unknown tool: " ++ name⟩], true⟩, []) := by
  simp only [List.mem_cons, List.not_mem_nil, or_false, not_or] at hname
  obtain ⟨h1, h2, h3⟩ := hname
  simp only [callToolHandler, dispatch, h1, h2, h3, if_false, resultOf]
  refine Prod.ext ?_ rfl
  refine congrArg (fun t => ToolResult.mk [⟨"text", t⟩] true) ?_
  apply String.ext
  simp only [String.data_append, ← List.append_assoc]
  rfl

/-- Witness for C4: `invoke("nonexistent_tool", {})` returns the
unknown-tool error result. -/
theorem callToolHandler_unknown_tool_witness :
    callToolHandler httpOk "nonexistent_tool" {} =
      (⟨[⟨"text", "Error: Unknown tool: nonexistent_tool"⟩], true⟩, []) := by
  exact callToolHandler_unknown_tool httpOk "nonexistent_tool" {}
    (by decide)

/-- **C5.** `invoke("create_highlight", {text: "hello"})` issues one POST
to `/highlights/` with body `{highlights: [{text: "hello", ...other
fields null}]}`.

The "other fields null" part fails on the code: the argument bag
`{text: "hello"}` has no other keys, the spread in `cleanHighlightData`
copies only existing keys, and `JSON.stringify` drops absent keys, so the
transmitted highlight is `{text: "hello"}` with the other fields absent,
not `null`. -/
theorem createHighlight_hello_fields_absent_not_null :
    (callToolHandler httpOk "create_highlight"
        { highlight := { text := .str "hello" } }).2 =
      [postHighlights [{ text := .str "hello" }]] ∧
    (cleanHighlightData { text := .str "hello" }).title = .absent ∧
    FieldVal.absent ≠ FieldVal.vnull := by
  refine ⟨rfl, rfl, by decide⟩

/-- **C5 (amended).** For every Highlight `h`, `createHighlight`
normalizes `h`, wraps it as a single-element list, and issues exactly one
POST to `/highlights/` with body `{highlights: [<normalized h>]}`; in
particular `invoke("create_highlight", {text: "hello"})` issues one POST
to `/highlights/` with body `{highlights: [{text: "hello"}]}`, the other
fields staying absent (omitted from the body), not null. -/
theorem createHighlight_single_post (http : HttpLayer) (h : Highlight)
    (args : ArgBag) :
    createHighlight http h =
      ([postHighlights [cleanHighlightData h]],
        http (postHighlights [cleanHighlightData h])) ∧
    (callToolHandler http "create_highlight" args).2 =
      [postHighlights [cleanHighlightData args.highlight]] ∧
    (callToolHandler http "create_highlight"
        { highlight := { text := .str "hello" } }).2 =
      [postHighlights [{ text := .str "hello" }]] := by
  exact ⟨rfl, rfl, rfl⟩

/-- **C6.** For every sequence of Highlights `hs`, `createHighlights`
builds its single-request payload by normalizing each element of `hs`
independently, preserving order and performing no deduplication: the
submitted list is the element-wise normalization of `hs`, of the same
length, with the element at every index `i` the normalization of the
element of `hs` at `i`; and
`invoke("create_highlights", {highlights: hs})` issues that one POST. -/
theorem createHighlights_maps_in_order (http : HttpLayer)
    (hs : List Highlight) (d : Highlight) (i : Nat) (bagH : Highlight) :
    (createHighlights http hs).1 =
      [postHighlights (hs.map cleanHighlightData)] ∧
    (hs.map cleanHighlightData).length = hs.length ∧
    (hs.map cleanHighlightData).getD i (cleanHighlightData d) =
      cleanHighlightData (hs.getD i d) ∧
    (callToolHandler http "create_highlights" ⟨bagH, some hs⟩).2 =
      [postHighlights (hs.map cleanHighlightData)] := by
  refine ⟨rfl, by simp, List.getD_map hs d cleanHighlightData, rfl⟩

/-- A fixed three-highlight response body, standing for whatever the
external API returns on a read. -/
def fixedThree : Json :=
  .arr [.obj [("id", .num 1), ("text", .str "a")],
        .obj [("id", .num 2), ("text", .str "b")],
        .obj [("id", .num 3), ("text", .str "c")]]

/-- An HTTP layer whose every request succeeds with `fixedThree`. -/
def httpFixedThree : HttpLayer := fun _ => .ok fixedThree

/-- **C7.** For every response value `r` returned by the Highlight Client
on success, the handler for each of the three known tools returns
`{isError: false}` with content equal to
`JSON.stringify(r, null, 2)`. -/
theorem callToolHandler_success_serializes (http : HttpLayer)
    (name : String) (args : ArgBag) (r : Json)
    (_hname : name ∈ (["create_highlight", "create_highlights",
      "get_highlights"] : List String))
    (hok : (dispatch http name args).2 = .ok r) :
    (callToolHandler http name args).1 =
      ⟨[⟨"text", stringify2 r⟩], false⟩ := by
  unfold callToolHandler
  rw [show (dispatch http name args) =
        ((dispatch http name args).1, (dispatch http name args).2) from rfl,
      hok]
  rfl

/-- Witness for C7: with the HTTP layer returning a fixed 3-highlight
array, `invoke("get_highlights", {})` returns `isError: false` with the
serialized form of that array. -/
theorem callToolHandler_success_serializes_witness :
    (callToolHandler httpFixedThree "get_highlights" {}).1 =
      ⟨[⟨"text", stringify2 fixedThree⟩], false⟩ := by
  exact callToolHandler_success_serializes httpFixedThree "get_highlights"
    {} fixedThree (by simp) rfl

/-- **C8.** When the token is absent from argv and the environment, the
resolver parses the configuration file tolerating surrounding quotes and
trailing whitespace/newlines: the line `READWISE_API_TOKEN="abc123"`
yields `abc123` with the quotes stripped, also with trailing blanks and
a newline after the closing quote, and an unquoted value is cut at the
newline.  A file-read error is swallowed and treated as not-found — the
resolver returns the missing-credential error instead of crashing,
exactly as for a missing file — and with all three sources absent the
resolver fails with the missing-credential error. -/
theorem resolveToken_file_fallback :
    resolveToken [] none (.content "READWISE_API_TOKEN=\"abc123\"") =
      .ok "abc123" ∧
    resolveToken [] none (.content "READWISE_API_TOKEN=\"abc123\"  \r\n") =
      .ok "abc123" ∧
    resolveToken [] none (.content "READWISE_API_TOKEN=abc123\n") =
      .ok "abc123" ∧
    resolveToken [] none .readError = .error missingTokenMsg ∧
    resolveToken [] none .readError = resolveToken [] none .missing ∧
    resolveToken [] none .missing = .error missingTokenMsg := by
  exact ⟨rfl, rfl, rfl, rfl, rfl, rfl⟩

/-- **C9.** The empty-string normalization applies to every field
including the required `text` field: a Highlight whose `text` is the
empty string is not rejected; `createHighlight` and `createHighlights`
submit it with `text` normalized to `null` like any other empty-string
field, rather than leaving the empty string in the payload. -/
theorem cleanHighlightData_normalizes_text (http : HttpLayer)
    (h : Highlight) (hs : List Highlight) (ht : h.text = .str "") :
    (cleanHighlightData h).text = .vnull ∧
    (cleanHighlightData h).text ≠ .str "" ∧
    (createHighlight http h).1 = [postHighlights [cleanHighlightData h]] ∧
    (createHighlights http (h :: hs)).1 =
      [postHighlights (cleanHighlightData h ::
        hs.map cleanHighlightData)] := by
  refine ⟨?_, ?_, rfl, rfl⟩
  · simp [cleanHighlightData, cleanField, ht]
  · simp [cleanHighlightData, cleanField, ht]

/-- Witness for C9: the highlight `{text: ""}` is submitted with
`text: null`. -/
theorem cleanHighlightData_normalizes_text_witness :
    (cleanHighlightData { text := .str "" }).text = .vnull ∧
    (createHighlight httpOk { text := .str "" }).1 =
      [postHighlights [cleanHighlightData { text := .str "" }]] := by
  have hmain := cleanHighlightData_normalizes_text httpOk
    { text := .str "" } [] rfl
  exact ⟨hmain.1, hmain.2.2.1⟩

/-- **C10.** `cleanHighlightData` is idempotent — applying the
normalization twice equals applying it once — and it leaves every field
whose value is not the empty string unchanged. -/
theorem cleanHighlightData_idem (h : Highlight) :
    cleanHighlightData (cleanHighlightData h) = cleanHighlightData h ∧
    (h.text ≠ .str "" → (cleanHighlightData h).text = h.text) ∧
    (h.title ≠ .str "" → (cleanHighlightData h).title = h.title) ∧
    (h.author ≠ .str "" → (cleanHighlightData h).author = h.author) ∧
    (h.source_url ≠ .str "" →
      (cleanHighlightData h).source_url = h.source_url) ∧
    (h.note ≠ .str "" → (cleanHighlightData h).note = h.note) ∧
    (h.location ≠ .str "" →
      (cleanHighlightData h).location = h.location) ∧
    (h.location_type ≠ .str "" →
      (cleanHighlightData h).location_type = h.location_type) ∧
    (h.highlighted_at ≠ .str "" →
      (cleanHighlightData h).highlighted_at = h.highlighted_at) ∧
    (h.category ≠ .str "" →
      (cleanHighlightData h).category = h.category) ∧
    (h.highlight_url ≠ .str "" →
      (cleanHighlightData h).highlight_url = h.highlight_url) ∧
    (h.image_url ≠ .str "" →
      (cleanHighlightData h).image_url = h.image_url) := by
  refine ⟨?_, ?_, ?_, ?_, ?_, ?_, ?_, ?_, ?_, ?_, ?_, ?_⟩
  · simp [cleanHighlightData, cleanField_idem]
  all_goals intro hf
  all_goals simp [cleanHighlightData, cleanField_ne hf]

/-- Witness for C10: a highlight with a non-empty `text`, a `null`
`title` and an absent `author` is a fixed point of the normalization,
and those fields are unchanged. -/
theorem cleanHighlightData_idem_witness :
    cleanHighlightData (cleanHighlightData
        { text := .str "t", title := .vnull }) =
      cleanHighlightData { text := .str "t", title := .vnull } ∧
    (cleanHighlightData { text := .str "t", title := .vnull }).text =
      .str "t" ∧
    (cleanHighlightData { text := .str "t", title := .vnull }).title =
      .vnull ∧
    (cleanHighlightData { text := .str "t", title := .vnull }).author =
      .absent := by
  have hmain := cleanHighlightData_idem { text := .str "t", title := .vnull }
  exact ⟨hmain.1, hmain.2.1 (by decide), hmain.2.2.1 (by decide),
    hmain.2.2.2.1 (by decide)⟩
